import Mathlib

/-!
# Verification of the relationship-management subsystem

Shallow embedding of the follow graph maintained by `ProfileConcept`
(src/server/concepts/profile.ts) and of the friend-request lifecycle of
`FriendingConcept` (called from the routes layer), together with proofs of
the stated invariants: follow symmetry, idempotency, error behaviour and
frame conditions of `followUser`, the read accessors, profile creation
defaults, and request consumption by `acceptRequest`.

The persistence layer (`DocCollection` in `framework/doc.ts`) is modelled
as a list of documents with first-match read and first-match in-place
update, keyed by the `userId` filter that `ProfileConcept` always uses.
-/

/-- User identities are opaque values with decidable equality (`ObjectId`
in the source); we model them as natural numbers. -/
abbrev ObjectId := Nat

/-- The `verificationStatus` field of a profile: the source type is the
string union `"verified" | "unverified"`. -/
inductive VerificationStatus where
  | verified
  | unverified
deriving DecidableEq, Repr

/-- `ProfileDoc` from src/server/concepts/profile.ts: one document per user
identity, holding the denormalized `followers`/`following` mirrors. -/
structure ProfileDoc where
  userId : ObjectId
  name : String
  expertise : List String
  interests : List String
  pastExperience : List String
  verificationStatus : VerificationStatus
  gender : String
  followers : List ObjectId
  following : List ObjectId
deriving DecidableEq, Repr

/-- The profiles collection: a snapshot of the stored documents. -/
abbrev ProfileStore := List ProfileDoc

/-- Modelled from the spec: the Persistence Collaborator (`DocCollection`
in `framework/doc.ts`, which is not under src/) offers read-one by filter;
`ProfileConcept` always filters by `userId`, so `readOne` returns the
first document whose `userId` matches. -/
def readOne : ProfileStore → ObjectId → Option ProfileDoc
  | [], _ => none
  | p :: rest, uid => if p.userId = uid then some p else readOne rest uid

/-- Modelled from the spec: the Persistence Collaborator's update-one by
filter (`partialUpdateOne` in `framework/doc.ts`, not under src/): applies
the partial update `f` to the first document whose `userId` matches and
leaves every other document untouched. -/
def partialUpdateOne : ProfileStore → ObjectId → (ProfileDoc → ProfileDoc) → ProfileStore
  | [], _, _ => []
  | p :: rest, uid, f =>
      if p.userId = uid then f p :: rest else p :: partialUpdateOne rest uid f

/-- `ProfileConcept.createProfile`: inserts a fresh document with
`verificationStatus: "unverified"` and empty `followers`/`following`. -/
def createProfile (s : ProfileStore) (userId : ObjectId) (name : String)
    (expertise interests pastExperience : List String) (gender : String) : ProfileStore :=
  s ++ [{ userId := userId, name := name, expertise := expertise,
          interests := interests, pastExperience := pastExperience,
          verificationStatus := VerificationStatus.unverified,
          gender := gender, followers := [], following := [] }]

/-- The result of `ProfileConcept.followUser`: either the success message
or the thrown `ProfileNotFoundError` carrying the offending identity. -/
inductive FollowResult where
  | success
  | profileNotFound (userId : ObjectId)
deriving DecidableEq, Repr

/-- Second half of `ProfileConcept.followUser` (profile.ts lines 61-67):
read the current user's own profile; if it exists and `targetUserId` is
not yet in its `following` array, push it and write the array back; in
every case return the success message. -/
def followUserUpdateFollowing (s1 : ProfileStore) (userId targetUserId : ObjectId) :
    FollowResult × ProfileStore :=
  match readOne s1 userId with
  | none => (FollowResult.success, s1)
  | some currentUserProfile =>
      (FollowResult.success,
        if targetUserId ∈ currentUserProfile.following then s1
        else partialUpdateOne s1 userId
          (fun p => { p with following := currentUserProfile.following ++ [targetUserId] }))

/-- `ProfileConcept.followUser` (profile.ts lines 51-68): read the target's
profile, throwing `ProfileNotFoundError(targetUserId)` if absent; if
`userId` is not yet in its `followers` array, push it and write the array
back; then perform the `following`-side update of the caller's own
profile (`followUserUpdateFollowing`). The thrown error is returned
together with the store as it stands at the throw site. -/
def followUser (s : ProfileStore) (userId targetUserId : ObjectId) :
    FollowResult × ProfileStore :=
  match readOne s targetUserId with
  | none => (FollowResult.profileNotFound targetUserId, s)
  | some profile =>
      followUserUpdateFollowing
        (if userId ∈ profile.followers then s
         else partialUpdateOne s targetUserId
           (fun p => { p with followers := profile.followers ++ [userId] }))
        userId targetUserId

/-- The result of a read accessor: either the requested data or the thrown
`ProfileNotFoundError`. -/
inductive ReadResult (α : Type) where
  | ok (value : α)
  | profileNotFound (userId : ObjectId)
deriving DecidableEq, Repr

/-- `ProfileConcept.getProfile` (profile.ts lines 70-76). -/
def getProfile (s : ProfileStore) (userId : ObjectId) : ReadResult ProfileDoc × ProfileStore :=
  match readOne s userId with
  | none => (ReadResult.profileNotFound userId, s)
  | some p => (ReadResult.ok p, s)

/-- `ProfileConcept.getFollowers` (profile.ts lines 78-84). -/
def getFollowers (s : ProfileStore) (userId : ObjectId) :
    ReadResult (List ObjectId) × ProfileStore :=
  match readOne s userId with
  | none => (ReadResult.profileNotFound userId, s)
  | some p => (ReadResult.ok p.followers, s)

/-- `ProfileConcept.getFollowing` (profile.ts lines 86-92). -/
def getFollowing (s : ProfileStore) (userId : ObjectId) :
    ReadResult (List ObjectId) × ProfileStore :=
  match readOne s userId with
  | none => (ReadResult.profileNotFound userId, s)
  | some p => (ReadResult.ok p.following, s)

/-- Append-if-absent, the specification of what a `push` guarded by an
`includes` check does to an array. -/
def addIfAbsent (l : List ObjectId) (x : ObjectId) : List ObjectId :=
  if x ∈ l then l else l ++ [x]

/-- The cross-document consistency invariant of §3 of the specification:
for every pair of identities whose profiles exist, `a` is among `b`'s
followers exactly when `b` is among `a`'s following. -/
def FollowSymmetric (s : ProfileStore) : Prop :=
  ∀ a b pa pb, readOne s a = some pa → readOne s b = some pb →
    (a ∈ pb.followers ↔ b ∈ pa.following)

/-- A sequence of `followUser` calls, each pair being (caller, target);
the results are discarded and the store is threaded through. -/
def followSeq : List (ObjectId × ObjectId) → ProfileStore → ProfileStore
  | [], s => s
  | (u, t) :: rest, s => followSeq rest (followUser s u t).2

/-- A profile document with the given identity and all other fields at
their creation defaults; used for concrete test states. -/
def mkProfile (uid : ObjectId) : ProfileDoc :=
  { userId := uid, name := "", expertise := [], interests := [],
    pastExperience := [], verificationStatus := VerificationStatus.unverified,
    gender := "", followers := [], following := [] }

section Lemmas

theorem mem_addIfAbsent (l : List ObjectId) (x a : ObjectId) :
    a ∈ addIfAbsent l x ↔ a ∈ l ∨ a = x := by
  unfold addIfAbsent
  by_cases hx : x ∈ l
  · simp only [if_pos hx]
    constructor
    · exact Or.inl
    · rintro (h | rfl)
      · exact h
      · exact hx
  · simp [if_neg hx]

theorem userId_set_followers (p : ProfileDoc) (l : List ObjectId) :
    ({ p with followers := l } : ProfileDoc).userId = p.userId := rfl

theorem readOne_partialUpdateOne (s : ProfileStore) (uid x : ObjectId)
    (f : ProfileDoc → ProfileDoc) (hf : ∀ p, (f p).userId = p.userId) :
    readOne (partialUpdateOne s uid f) x =
      if x = uid then (readOne s uid).map f else readOne s x := by
  induction s with
  | nil => simp [readOne, partialUpdateOne]
  | cons p rest ih =>
    by_cases hp : p.userId = uid
    · by_cases hx : x = uid
      · subst hx
        simp [readOne, partialUpdateOne, hp, hf p]
      · have hux : ¬uid = x := fun h => hx h.symm
        simp [readOne, partialUpdateOne, hp, hf p, hx, hux]
    · by_cases hx : x = uid
      · subst hx
        simp [readOne, partialUpdateOne, hp, ih]
      · simp only [partialUpdateOne, if_neg hp, readOne]
        by_cases hpx : p.userId = x
        · simp [hpx, hx]
        · simp [hpx, ih, hx]

theorem followUserUpdateFollowing_reads (s1 : ProfileStore) (u t : ObjectId) :
    (followUserUpdateFollowing s1 u t).1 = FollowResult.success ∧
    ∀ x, readOne (followUserUpdateFollowing s1 u t).2 x =
      match readOne s1 u with
      | none => readOne s1 x
      | some cp =>
          if x = u then some { cp with following := addIfAbsent cp.following t }
          else readOne s1 x := by
  cases hcp : readOne s1 u with
  | none => simp [followUserUpdateFollowing, hcp]
  | some cp =>
    refine ⟨by simp [followUserUpdateFollowing, hcp], fun x => ?_⟩
    simp only [followUserUpdateFollowing, hcp]
    by_cases hmem : t ∈ cp.following
    · simp only [if_pos hmem, addIfAbsent, hmem]
      by_cases hx : x = u
      · subst hx; simp [hcp]
      · simp [hx]
    · simp only [if_neg hmem]
      rw [readOne_partialUpdateOne s1 u x
        (fun p => { p with following := cp.following ++ [t] }) (fun p => rfl)]
      by_cases hx : x = u
      · subst hx; simp [hcp, addIfAbsent, hmem]
      · simp [hx]

theorem followUser_stage1_reads (s : ProfileStore) (u t : ObjectId) (pt : ProfileDoc)
    (ht : readOne s t = some pt) :
    ∀ x, readOne
      (if u ∈ pt.followers then s
       else partialUpdateOne s t
         (fun p => { p with followers := pt.followers ++ [u] })) x =
      if x = t then some { pt with followers := addIfAbsent pt.followers u }
      else readOne s x := by
  intro x
  by_cases hmem : u ∈ pt.followers
  · simp only [if_pos hmem, addIfAbsent, hmem, if_pos]
    by_cases hx : x = t
    · subst hx; simp [ht]
    · simp [hx]
  · simp only [if_neg hmem]
    rw [readOne_partialUpdateOne s t x
      (fun p => { p with followers := pt.followers ++ [u] }) (fun p => rfl)]
    by_cases hx : x = t
    · subst hx; simp [ht, addIfAbsent, hmem]
    · simp [hx]

theorem followUser_reads (s : ProfileStore) (u t : ObjectId) (pt : ProfileDoc)
    (ht : readOne s t = some pt) :
    (followUser s u t).1 = FollowResult.success ∧
    ∀ x, readOne (followUser s u t).2 x =
      match (if u = t then some { pt with followers := addIfAbsent pt.followers u }
             else readOne s u) with
      | none =>
          if x = t then some { pt with followers := addIfAbsent pt.followers u }
          else readOne s x
      | some cp =>
          if x = u then some { cp with following := addIfAbsent cp.following t }
          else if x = t then some { pt with followers := addIfAbsent pt.followers u }
          else readOne s x := by
  have hfu : followUser s u t =
      followUserUpdateFollowing
        (if u ∈ pt.followers then s
         else partialUpdateOne s t
           (fun p => { p with followers := pt.followers ++ [u] }))
        u t := by
    simp [followUser, ht]
  have h1 := followUser_stage1_reads s u t pt ht
  have h2 := followUserUpdateFollowing_reads
    (if u ∈ pt.followers then s
     else partialUpdateOne s t
       (fun p => { p with followers := pt.followers ++ [u] })) u t
  rw [hfu]
  refine ⟨h2.1, fun x => ?_⟩
  rw [h2.2 x, h1 u]
  cases hcp : (if u = t then some { pt with followers := addIfAbsent pt.followers u }
               else readOne s u) with
  | none => exact h1 x
  | some cp =>
    by_cases hx : x = u
    · simp [hx]
    · simp only [if_neg hx]
      exact h1 x

theorem readOne_mem (s : ProfileStore) (x : ObjectId) (p : ProfileDoc)
    (h : readOne s x = some p) : p ∈ s := by
  induction s with
  | nil => simp [readOne] at h
  | cons q rest ih =>
    simp only [readOne] at h
    split at h
    · cases h; exact List.mem_cons_self _ _
    · exact List.mem_cons_of_mem _ (ih h)

theorem addIfAbsent_extends (l : List ObjectId) (x : ObjectId) :
    ∃ d, addIfAbsent l x = l ++ d := by
  unfold addIfAbsent
  by_cases h : x ∈ l
  · exact ⟨[], by simp [h]⟩
  · exact ⟨[x], by simp [h]⟩

theorem followUser_reads_none (s : ProfileStore) (u t : ObjectId) (pt : ProfileDoc)
    (ht : readOne s t = some pt) (hut : u ≠ t) (hu : readOne s u = none) :
    (followUser s u t).1 = FollowResult.success ∧
    ∀ x, readOne (followUser s u t).2 x =
      if x = t then some { pt with followers := addIfAbsent pt.followers u }
      else readOne s x := by
  obtain ⟨h1, h2⟩ := followUser_reads s u t pt ht
  refine ⟨h1, fun x => ?_⟩
  have hx := h2 x
  rw [if_neg hut, hu] at hx
  exact hx

theorem followUser_reads_some (s : ProfileStore) (u t : ObjectId) (pt cp : ProfileDoc)
    (ht : readOne s t = some pt)
    (hcp : (if u = t then some { pt with followers := addIfAbsent pt.followers u }
            else readOne s u) = some cp) :
    (followUser s u t).1 = FollowResult.success ∧
    ∀ x, readOne (followUser s u t).2 x =
      if x = u then some { cp with following := addIfAbsent cp.following t }
      else if x = t then some { pt with followers := addIfAbsent pt.followers u }
      else readOne s x := by
  obtain ⟨h1, h2⟩ := followUser_reads s u t pt ht
  refine ⟨h1, fun x => ?_⟩
  have hx := h2 x
  rw [hcp] at hx
  exact hx

/-- Full characterization of the documents after `followUser` when the
target profile exists: every surviving document arises from a stored one
by at most extending `followers` (only at the target) and `following`
(only at the caller). -/
theorem followUser_key (s : ProfileStore) (u t : ObjectId) (pt : ProfileDoc)
    (ht : readOne s t = some pt) :
    ∀ x px, readOne (followUser s u t).2 x = some px →
      ∃ p0, readOne s x = some p0 ∧
        px.followers = (if x = t then addIfAbsent p0.followers u else p0.followers) ∧
        px.following = (if x = u then addIfAbsent p0.following t else p0.following) := by
  intro x px hx
  cases hcp : (if u = t then some { pt with followers := addIfAbsent pt.followers u }
               else readOne s u) with
  | none =>
    have hut : u ≠ t := by
      intro h
      rw [if_pos h] at hcp
      exact Option.noConfusion hcp
    have hsu : readOne s u = none := by rwa [if_neg hut] at hcp
    obtain ⟨_, h2⟩ := followUser_reads_none s u t pt ht hut hsu
    rw [h2 x] at hx
    by_cases hxt : x = t
    · rw [if_pos hxt] at hx
      cases hx
      have hxu : x ≠ u := fun h => hut (by rw [← h]; exact hxt)
      exact ⟨pt, by rw [hxt]; exact ht, by rw [if_pos hxt], by rw [if_neg hxu]⟩
    · rw [if_neg hxt] at hx
      by_cases hxu : x = u
      · rw [hxu, hsu] at hx
        exact Option.noConfusion hx
      · exact ⟨px, hx, by rw [if_neg hxt], by rw [if_neg hxu]⟩
  | some cp =>
    obtain ⟨_, h2⟩ := followUser_reads_some s u t pt cp ht hcp
    rw [h2 x] at hx
    by_cases hxu : x = u
    · rw [if_pos hxu] at hx
      cases hx
      by_cases hut : u = t
      · rw [if_pos hut] at hcp
        cases hcp
        exact ⟨pt, by rw [hxu, hut]; exact ht,
          by rw [if_pos (hxu.trans hut)], by rw [if_pos hxu]⟩
      · rw [if_neg hut] at hcp
        exact ⟨cp, by rw [hxu]; exact hcp,
          by rw [if_neg (fun h => hut (hxu.symm.trans h))], by rw [if_pos hxu]⟩
    · rw [if_neg hxu] at hx
      by_cases hxt : x = t
      · rw [if_pos hxt] at hx
        cases hx
        exact ⟨pt, by rw [hxt]; exact ht, by rw [if_pos hxt], by rw [if_neg hxu]⟩
      · rw [if_neg hxt] at hx
        exact ⟨px, hx, by rw [if_neg hxt], by rw [if_neg hxu]⟩

/-- When both profiles exist, `followUser` succeeds and the resulting
arrays are the append-if-absent extensions of the stored ones. -/
theorem followUser_effect (s : ProfileStore) (u t : ObjectId) (pu pt : ProfileDoc)
    (hu : readOne s u = some pu) (ht : readOne s t = some pt) :
    (followUser s u t).1 = FollowResult.success ∧
    ∃ pt' pu',
      readOne (followUser s u t).2 t = some pt' ∧
      readOne (followUser s u t).2 u = some pu' ∧
      pt'.followers = addIfAbsent pt.followers u ∧
      pu'.following = addIfAbsent pu.following t := by
  by_cases hut : u = t
  · subst hut
    have hpp : pu = pt := Option.some.inj (hu.symm.trans ht)
    subst hpp
    obtain ⟨h1, h2⟩ := followUser_reads_some s u u pu
      { pu with followers := addIfAbsent pu.followers u } ht (if_pos rfl)
    have hD : readOne (followUser s u u).2 u =
        some { { pu with followers := addIfAbsent pu.followers u } with
               following := addIfAbsent pu.following u } := by
      rw [h2 u, if_pos rfl]
    exact ⟨h1, _, _, hD, hD, rfl, rfl⟩
  · obtain ⟨h1, h2⟩ := followUser_reads_some s u t pt pu ht (by rw [if_neg hut]; exact hu)
    have htu : t ≠ u := fun h => hut h.symm
    have hT : readOne (followUser s u t).2 t =
        some { pt with followers := addIfAbsent pt.followers u } := by
      rw [h2 t, if_neg htu, if_pos rfl]
    have hU : readOne (followUser s u t).2 u =
        some { pu with following := addIfAbsent pu.following t } := by
      rw [h2 u, if_pos rfl]
    exact ⟨h1, _, _, hT, hU, rfl, rfl⟩

/-- A single `followUser` call preserves the cross-document symmetry
invariant. -/
theorem followUser_preserves_symmetry (s : ProfileStore) (u t : ObjectId)
    (hs : FollowSymmetric s) : FollowSymmetric (followUser s u t).2 := by
  cases ht : readOne s t with
  | none =>
    intro a b pa pb ha hb
    have heq : (followUser s u t).2 = s := by simp [followUser, ht]
    rw [heq] at ha hb
    exact hs a b pa pb ha hb
  | some pt =>
    intro a b pa pb ha hb
    obtain ⟨pa0, ha0, _, hag⟩ := followUser_key s u t pt ht a pa ha
    obtain ⟨pb0, hb0, hbf, _⟩ := followUser_key s u t pt ht b pb hb
    have hsym := hs a b pa0 pb0 ha0 hb0
    rw [hbf, hag]
    by_cases hbt : b = t
    · rw [if_pos hbt]
      by_cases hau : a = u
      · rw [if_pos hau]
        simp [mem_addIfAbsent, hau, hbt]
      · rw [if_neg hau, mem_addIfAbsent]
        simp only [hau, or_false]
        exact hsym
    · rw [if_neg hbt]
      by_cases hau : a = u
      · rw [if_pos hau, mem_addIfAbsent]
        simp only [hbt, or_false]
        exact hsym
      · rw [if_neg hau]
        exact hsym

end Lemmas

/-- Modelled from the spec: a Friend Request document of the Request Store
(`FriendingConcept` in src/server/concepts/friending.ts, which is not
under src/): a directed proposal from `fromId` to `toId` (`from`/`to` in
the spec; `from` is reserved in Lean). Only Pending requests are stored;
resolution deletes the record, as §3 of the spec allows. -/
structure FriendRequestDoc where
  fromId : ObjectId
  toId : ObjectId
deriving DecidableEq, Repr

/-- Modelled from the spec: a materialized Friendship Edge, stored once
and queried symmetrically in both orientations (§3 and §4.2). -/
structure FriendshipEdge where
  user1 : ObjectId
  user2 : ObjectId
deriving DecidableEq, Repr

/-- Modelled from the spec: the state owned by the Request Store and the
Friendship Index - the pending requests and the confirmed edges. -/
structure FriendingState where
  requests : List FriendRequestDoc
  friends : List FriendshipEdge
deriving DecidableEq, Repr

/-- Modelled from the spec: the typed failure of `acceptRequest`
(`RequestNotFoundError`). -/
inductive FriendingError where
  | requestNotFound (fromId toId : ObjectId)
deriving DecidableEq, Repr

/-- Modelled from the spec: `acceptRequest(from, to)` - `to` accepts a
Pending request sent `from → to`; fails with `RequestNotFoundError` if no
such Pending request exists; on success creates the Friendship Edge
`{from, to}` and discards the Pending record (§4.1). -/
def acceptRequest (st : FriendingState) (fromId toId : ObjectId) :
    Except FriendingError FriendingState :=
  if st.requests.any (fun r => r.fromId == fromId && r.toId == toId) then
    Except.ok
      { requests := st.requests.filter (fun r => !(r.fromId == fromId && r.toId == toId)),
        friends := st.friends ++ [{ user1 := fromId, user2 := toId }] }
  else
    Except.error (FriendingError.requestNotFound fromId toId)

/-- Modelled from the spec: `getRequests(user)` - the Pending requests
whose recipient is `user` (§4.1). -/
def getRequests (st : FriendingState) (user : ObjectId) : List FriendRequestDoc :=
  st.requests.filter (fun r => r.toId == user)

/-- Modelled from the spec: `getFriends(user)` - the identities forming a
Friendship Edge with `user`, querying both orientations of each stored
edge (§4.1 and §4.2). -/
def getFriends (st : FriendingState) (user : ObjectId) : List ObjectId :=
  st.friends.filterMap (fun e =>
    if e.user1 == user then some e.user2
    else if e.user2 == user then some e.user1
    else none)

/-- C9: `createProfile` always initializes the new document with empty
`followers` and `following` arrays and `verificationStatus` equal to
`"unverified"`, whatever the other arguments are; the new document is
appended to the store and carries the given field values. -/
theorem createProfile_initializes_defaults (s : ProfileStore) (uid : ObjectId)
    (name : String) (expertise interests pastExperience : List String) (gender : String) :
    ∃ d, createProfile s uid name expertise interests pastExperience gender = s ++ [d] ∧
      d.followers = [] ∧ d.following = [] ∧
      d.verificationStatus = VerificationStatus.unverified ∧
      d.userId = uid ∧ d.name = name ∧ d.expertise = expertise ∧
      d.interests = interests ∧ d.pastExperience = pastExperience ∧ d.gender = gender :=
  ⟨_, rfl, rfl, rfl, rfl, rfl, rfl, rfl, rfl, rfl, rfl⟩

/-- C7: `getFollowers` returns exactly the `followers` array of the stored
profile and `getFollowing` exactly its `following` array; both leave the
store unchanged, and both fail with `ProfileNotFoundError` carrying the
queried identity when no profile exists for it. -/
theorem getFollowers_getFollowing_spec (s : ProfileStore) (uid : ObjectId) :
    (∀ p, readOne s uid = some p →
      getFollowers s uid = (ReadResult.ok p.followers, s) ∧
      getFollowing s uid = (ReadResult.ok p.following, s)) ∧
    (readOne s uid = none →
      getFollowers s uid = (ReadResult.profileNotFound uid, s) ∧
      getFollowing s uid = (ReadResult.profileNotFound uid, s)) := by
  constructor
  · intro p hp
    constructor <;> simp [getFollowers, getFollowing, hp]
  · intro hp
    constructor <;> simp [getFollowers, getFollowing, hp]

/-- Witness for C7 at a concrete store holding one profile. -/
theorem getFollowers_getFollowing_spec_witness :
    getFollowers [mkProfile 1] 1 = (ReadResult.ok [], [mkProfile 1]) ∧
    getFollowing [mkProfile 1] 1 = (ReadResult.ok [], [mkProfile 1]) :=
  (getFollowers_getFollowing_spec [mkProfile 1] 1).1 (mkProfile 1) (by decide)

/-- C5: whenever `followUser` fails with the typed domain error
`ProfileNotFoundError`, the store is exactly what it was before the call:
the operation either fully succeeds or fails leaving state unchanged. -/
theorem followUser_error_leaves_state_unchanged (s : ProfileStore) (u t e : ObjectId)
    (h : (followUser s u t).1 = FollowResult.profileNotFound e) :
    (followUser s u t).2 = s := by
  cases ht : readOne s t with
  | none => simp [followUser, ht]
  | some pt => exact absurd ((followUser_reads s u t pt ht).1.symm.trans h) (by simp)

/-- Witness for C5: following a user in an empty store fails and leaves
the store empty. -/
theorem followUser_error_leaves_state_unchanged_witness :
    (followUser [] 1 2).2 = [] :=
  followUser_error_leaves_state_unchanged [] 1 2 2 (by decide)

/-- Counterexample to C3 as stated: with only the target profile `2`
present, the caller `1` has no profile, yet `followUser 1 2` does not fail
with `ProfileNotFoundError` - it returns the success result. -/
theorem followUser_missing_caller_profile_succeeds :
    readOne [mkProfile 2] 1 = none ∧
    (followUser [mkProfile 2] 1 2).1 = FollowResult.success := by
  decide

/-- C3 amended: `followUser(user, target)` fails with
`ProfileNotFoundError` exactly when the target's profile is absent; the
absence of the caller's own profile does not make the call fail. -/
theorem followUser_fails_iff_target_absent (s : ProfileStore) (u t : ObjectId) :
    (followUser s u t).1 = FollowResult.profileNotFound t ↔ readOne s t = none := by
  cases ht : readOne s t with
  | none => simp [followUser, ht]
  | some pt =>
    simp only [iff_false, ne_eq, reduceCtorEq]
    rw [(followUser_reads s u t pt ht).1]
    simp

/-- C8: after `acceptRequest(A, B)` succeeds, the pending request from `A`
no longer appears in `getRequests(B)`, `getFriends(A)` contains `B` and
`getFriends(B)` contains `A`: accepting creates the friendship edge and
discards the pending record. -/
theorem acceptRequest_consumes_request (st : FriendingState) (a b : ObjectId)
    (st' : FriendingState) (h : acceptRequest st a b = Except.ok st') :
    (∀ r ∈ getRequests st' b, r.fromId ≠ a) ∧
    b ∈ getFriends st' a ∧ a ∈ getFriends st' b := by
  unfold acceptRequest at h
  by_cases hex : st.requests.any (fun r => r.fromId == a && r.toId == b)
  · rw [if_pos hex] at h
    cases h
    refine ⟨?_, ?_, ?_⟩
    · intro r hr
      simp only [getRequests, List.mem_filter, List.mem_filter] at hr
      obtain ⟨⟨_, hne⟩, hto⟩ := hr
      intro hfrom
      rw [hfrom] at hne
      simp only [beq_iff_eq, beq_self_eq_true, Bool.not_eq_true, Bool.and_eq_true] at hne hto
      simp [hto] at hne
    · simp only [getFriends, List.filterMap_append, List.mem_append]
      right
      by_cases hab : a = b
      · simp [hab]
      · simp [hab]
    · simp only [getFriends, List.filterMap_append, List.mem_append]
      right
      by_cases hab : a = b
      · simp [hab]
      · simp [hab, Ne.symm hab]
  · rw [if_neg hex] at h
    cases h

/-- Witness for C8 at a concrete state holding one pending request. -/
theorem acceptRequest_consumes_request_witness :
    (∀ r ∈ getRequests { requests := [], friends := [{ user1 := 1, user2 := 2 }] } 2,
        r.fromId ≠ 1) ∧
    2 ∈ getFriends { requests := [], friends := [{ user1 := 1, user2 := 2 }] } 1 ∧
    1 ∈ getFriends { requests := [], friends := [{ user1 := 1, user2 := 2 }] } 2 :=
  acceptRequest_consumes_request
    { requests := [{ fromId := 1, toId := 2 }], friends := [] } 1 2
    { requests := [], friends := [{ user1 := 1, user2 := 2 }] } rfl

/-- C1: for every pair of identities whose profiles exist, after any
sequence of `followUser` operations starting from a store satisfying the
cross-document symmetry invariant, `A ∈ profile(B).followers` iff
`B ∈ profile(A).following`. -/
theorem followSeq_symmetry_invariant (ops : List (ObjectId × ObjectId)) (s : ProfileStore)
    (hs : FollowSymmetric s) : FollowSymmetric (followSeq ops s) := by
  induction ops generalizing s with
  | nil => exact hs
  | cons op rest ih =>
    cases op with
    | mk u t => exact ih (followUser s u t).2 (followUser_preserves_symmetry s u t hs)

/-- Witness for C1: two freshly created profiles satisfy the invariant
and still do after the sequence [follow 1 2, follow 2 1, follow 1 2]. -/
theorem followSeq_symmetry_invariant_witness :
    FollowSymmetric (followSeq [(1, 2), (2, 1), (1, 2)] [mkProfile 1, mkProfile 2]) := by
  apply followSeq_symmetry_invariant
  intro a b pa pb ha hb
  have hpa := readOne_mem _ _ _ ha
  have hpb := readOne_mem _ _ _ hb
  simp only [List.mem_cons, List.not_mem_nil, or_false] at hpa hpb
  rcases hpa with rfl | rfl <;> rcases hpb with rfl | rfl <;> simp [mkProfile]

/-- C2: with both profiles present, calling `followUser` twice in
sequence leaves the store identical to calling it once (and the second
call also succeeds); in particular, starting from an empty followers
array, the target's followers array after the double call is the
one-element list [user], not a list of length two. -/
theorem followUser_idempotent (s : ProfileStore) (u t : ObjectId) (pu pt : ProfileDoc)
    (hu : readOne s u = some pu) (ht : readOne s t = some pt) :
    followUser (followUser s u t).2 u t = (FollowResult.success, (followUser s u t).2) ∧
    (pt.followers = [] →
      ∃ pt', readOne (followUser (followUser s u t).2 u t).2 t = some pt' ∧
             pt'.followers = [u]) := by
  obtain ⟨h1, pt', pu', hT, hU, hF, hG⟩ := followUser_effect s u t pu pt hu ht
  have hmt : u ∈ pt'.followers := by
    rw [hF]; exact (mem_addIfAbsent _ _ _).mpr (Or.inr rfl)
  have hmu : t ∈ pu'.following := by
    rw [hG]; exact (mem_addIfAbsent _ _ _).mpr (Or.inr rfl)
  have hstep : ∀ s' : ProfileStore, readOne s' t = some pt' → readOne s' u = some pu' →
      followUser s' u t = (FollowResult.success, s') := by
    intro s' hT' hU'
    simp [followUser, hT', hmt, followUserUpdateFollowing, hU', hmu]
  have hfix := hstep (followUser s u t).2 hT hU
  refine ⟨hfix, fun hemp => ⟨pt', ?_, ?_⟩⟩
  · rw [hfix]
    exact hT
  · rw [hF, hemp]
    simp [addIfAbsent]

/-- Witness for C2: the double follow of 2 by 1 from fresh profiles. -/
theorem followUser_idempotent_witness :
    followUser (followUser [mkProfile 1, mkProfile 2] 1 2).2 1 2 =
      (FollowResult.success, (followUser [mkProfile 1, mkProfile 2] 1 2).2) ∧
    ((mkProfile 2).followers = [] →
      ∃ pt', readOne (followUser (followUser [mkProfile 1, mkProfile 2] 1 2).2 1 2).2 2 =
               some pt' ∧ pt'.followers = [1]) :=
  followUser_idempotent [mkProfile 1, mkProfile 2] 1 2 (mkProfile 1) (mkProfile 2) rfl rfl

/-- Counterexample to C4 as stated: with identity 1's profile present,
`followUser 1 1` does not fail - it succeeds and mutates the store. -/
theorem followUser_self_not_rejected :
    (followUser [mkProfile 1] 1 1).1 = FollowResult.success ∧
    (followUser [mkProfile 1] 1 1).2 ≠ [mkProfile 1] := by decide

/-- C4 amended: `followUser(A, A)` is not rejected: when A's profile
exists it succeeds and records the self-follow, leaving A a member of its
own followers and following arrays. -/
theorem followUser_self_succeeds (s : ProfileStore) (a : ObjectId) (pa : ProfileDoc)
    (ha : readOne s a = some pa) :
    (followUser s a a).1 = FollowResult.success ∧
    ∃ pa', readOne (followUser s a a).2 a = some pa' ∧
           a ∈ pa'.followers ∧ a ∈ pa'.following := by
  obtain ⟨h1, pt', pu', hT, hU, hF, hG⟩ := followUser_effect s a a pa pa ha ha
  have hpp : pt' = pu' := Option.some.inj (hT.symm.trans hU)
  subst hpp
  exact ⟨h1, pt', hT,
    by rw [hF]; exact (mem_addIfAbsent _ _ _).mpr (Or.inr rfl),
    by rw [hG]; exact (mem_addIfAbsent _ _ _).mpr (Or.inr rfl)⟩

/-- Witness for C4's amended statement at a concrete one-profile store. -/
theorem followUser_self_succeeds_witness :
    (followUser [mkProfile 1] 1 1).1 = FollowResult.success ∧
    ∃ pa', readOne (followUser [mkProfile 1] 1 1).2 1 = some pa' ∧
           1 ∈ pa'.followers ∧ 1 ∈ pa'.following :=
  followUser_self_succeeds [mkProfile 1] 1 (mkProfile 1) rfl

/-- C6: on success with both profiles present, `followUser` appends the
caller to the end of the target's followers array when absent (leaving it
unchanged otherwise - re-following is a silent no-op, not an error), and
appends the target to the end of the caller's following array when
absent, and returns the success result. -/
theorem followUser_success_appends (s : ProfileStore) (u t : ObjectId) (pu pt : ProfileDoc)
    (hu : readOne s u = some pu) (ht : readOne s t = some pt) :
    (followUser s u t).1 = FollowResult.success ∧
    (∃ pt', readOne (followUser s u t).2 t = some pt' ∧
      pt'.followers = if u ∈ pt.followers then pt.followers else pt.followers ++ [u]) ∧
    (∃ pu', readOne (followUser s u t).2 u = some pu' ∧
      pu'.following = if t ∈ pu.following then pu.following else pu.following ++ [t]) := by
  obtain ⟨h1, pt', pu', hT, hU, hF, hG⟩ := followUser_effect s u t pu pt hu ht
  exact ⟨h1, ⟨pt', hT, hF⟩, ⟨pu', hU, hG⟩⟩

/-- Witness for C6: 1 follows 2 from fresh profiles. -/
theorem followUser_success_appends_witness :
    (followUser [mkProfile 1, mkProfile 2] 1 2).1 = FollowResult.success ∧
    (∃ pt', readOne (followUser [mkProfile 1, mkProfile 2] 1 2).2 2 = some pt' ∧
      pt'.followers = if 1 ∈ (mkProfile 2).followers then (mkProfile 2).followers
                      else (mkProfile 2).followers ++ [1]) ∧
    (∃ pu', readOne (followUser [mkProfile 1, mkProfile 2] 1 2).2 1 = some pu' ∧
      pu'.following = if 2 ∈ (mkProfile 1).following then (mkProfile 1).following
                      else (mkProfile 1).following ++ [2]) :=
  followUser_success_appends [mkProfile 1, mkProfile 2] 1 2 (mkProfile 1) (mkProfile 2) rfl rfl

/-- C10: frame condition of `followUser`: every stored profile survives;
all fields other than the target's followers and the caller's following
are unchanged; any profile of a third identity is completely unchanged;
and followers/following arrays are only ever extended at the end, never
losing or reordering existing elements. -/
theorem followUser_frame (s : ProfileStore) (u t x : ObjectId) (p : ProfileDoc)
    (hx : readOne s x = some p) :
    ∃ p', readOne (followUser s u t).2 x = some p' ∧
      p'.userId = p.userId ∧ p'.name = p.name ∧ p'.expertise = p.expertise ∧
      p'.interests = p.interests ∧ p'.pastExperience = p.pastExperience ∧
      p'.verificationStatus = p.verificationStatus ∧ p'.gender = p.gender ∧
      (∃ d, p'.followers = p.followers ++ d) ∧
      (∃ d, p'.following = p.following ++ d) ∧
      (x ≠ t → p'.followers = p.followers) ∧
      (x ≠ u → p'.following = p.following) ∧
      (x ≠ t → x ≠ u → p' = p) := by
  cases ht : readOne s t with
  | none =>
    have heq : (followUser s u t).2 = s := by simp [followUser, ht]
    rw [heq]
    exact ⟨p, hx, rfl, rfl, rfl, rfl, rfl, rfl, rfl, ⟨[], by simp⟩, ⟨[], by simp⟩,
      fun _ => rfl, fun _ => rfl, fun _ _ => rfl⟩
  | some pt =>
    cases hcp : (if u = t then some { pt with followers := addIfAbsent pt.followers u }
                 else readOne s u) with
    | none =>
      have hut : u ≠ t := by
        intro h
        rw [if_pos h] at hcp
        exact Option.noConfusion hcp
      have hsu : readOne s u = none := by rwa [if_neg hut] at hcp
      obtain ⟨_, h2⟩ := followUser_reads_none s u t pt ht hut hsu
      by_cases hxt : x = t
      · have hp : p = pt := by
          rw [hxt] at hx
          exact Option.some.inj (hx.symm.trans ht)
        subst hp
        refine ⟨{ p with followers := addIfAbsent p.followers u }, ?_,
          rfl, rfl, rfl, rfl, rfl, rfl, rfl,
          addIfAbsent_extends p.followers u, ⟨[], by simp⟩,
          fun h => absurd hxt h, fun _ => rfl, fun h _ => absurd hxt h⟩
        rw [h2 x, if_pos hxt]
      · exact ⟨p, by rw [h2 x, if_neg hxt]; exact hx, rfl, rfl, rfl, rfl, rfl, rfl, rfl,
          ⟨[], by simp⟩, ⟨[], by simp⟩, fun _ => rfl, fun _ => rfl, fun _ _ => rfl⟩
    | some cp =>
      obtain ⟨_, h2⟩ := followUser_reads_some s u t pt cp ht hcp
      by_cases hxu : x = u
      · by_cases hut : u = t
        · rw [if_pos hut] at hcp
          cases hcp
          have hp : p = pt := by
            rw [hxu, hut] at hx
            exact Option.some.inj (hx.symm.trans ht)
          subst hp
          refine ⟨{ p with
            followers := addIfAbsent p.followers u
            following := addIfAbsent p.following t }, ?_,
            rfl, rfl, rfl, rfl, rfl, rfl, rfl,
            addIfAbsent_extends p.followers u, addIfAbsent_extends p.following t,
            fun h => absurd (hxu.trans hut) h, fun h => absurd hxu h,
            fun _ h => absurd hxu h⟩
          rw [h2 x, if_pos hxu]
        · rw [if_neg hut] at hcp
          have hp : p = cp := by
            rw [hxu] at hx
            exact Option.some.inj (hx.symm.trans hcp)
          subst hp
          refine ⟨{ p with following := addIfAbsent p.following t }, ?_,
            rfl, rfl, rfl, rfl, rfl, rfl, rfl,
            ⟨[], by simp⟩, addIfAbsent_extends p.following t,
            fun _ => rfl, fun h => absurd hxu h, fun _ h => absurd hxu h⟩
          rw [h2 x, if_pos hxu]
      · by_cases hxt : x = t
        · have hp : p = pt := by
            rw [hxt] at hx
            exact Option.some.inj (hx.symm.trans ht)
          subst hp
          refine ⟨{ p with followers := addIfAbsent p.followers u }, ?_,
            rfl, rfl, rfl, rfl, rfl, rfl, rfl,
            addIfAbsent_extends p.followers u, ⟨[], by simp⟩,
            fun h => absurd hxt h, fun _ => rfl, fun h _ => absurd hxt h⟩
          rw [h2 x, if_neg hxu, if_pos hxt]
        · exact ⟨p, by rw [h2 x, if_neg hxu, if_neg hxt]; exact hx,
            rfl, rfl, rfl, rfl, rfl, rfl, rfl, ⟨[], by simp⟩, ⟨[], by simp⟩,
            fun _ => rfl, fun _ => rfl, fun _ _ => rfl⟩

/-- Witness for C10: the frame condition instantiated for a third party's
profile (identity 3) while 1 follows 2. -/
theorem followUser_frame_witness :
    ∃ p', readOne (followUser [mkProfile 1, mkProfile 2, mkProfile 3] 1 2).2 3 = some p' ∧
      p'.userId = (mkProfile 3).userId ∧ p'.name = (mkProfile 3).name ∧
      p'.expertise = (mkProfile 3).expertise ∧ p'.interests = (mkProfile 3).interests ∧
      p'.pastExperience = (mkProfile 3).pastExperience ∧
      p'.verificationStatus = (mkProfile 3).verificationStatus ∧
      p'.gender = (mkProfile 3).gender ∧
      (∃ d, p'.followers = (mkProfile 3).followers ++ d) ∧
      (∃ d, p'.following = (mkProfile 3).following ++ d) ∧
      ((3 : ObjectId) ≠ 2 → p'.followers = (mkProfile 3).followers) ∧
      ((3 : ObjectId) ≠ 1 → p'.following = (mkProfile 3).following) ∧
      ((3 : ObjectId) ≠ 2 → (3 : ObjectId) ≠ 1 → p' = mkProfile 3) :=
  followUser_frame [mkProfile 1, mkProfile 2, mkProfile 3] 1 2 3 (mkProfile 3) rfl
